import Mathlib

/-!
# The transactional warehouse resource

A shallow embedding of `internal/warehouse/transactional_warehouse.go`: the
resource model, and the handlers `Read`, `Delete`, `ImportState` and the
version-0 state upgrader, followed by the properties proved about them.

The handlers talk to two collaborators that are not part of the file: the
plugin framework (state decoding, `State.Set`, `State.SetAttribute`,
diagnostics) and the GraphQL client (`ExecRaw`, `Mutate`).  What they answer
is an input of the embedded handler; what the handler asks of them is recorded
in the response (`Calls`, `State`, `Sets`).
-/

namespace basetypes

/-- The framework's `types.String`: null, unknown, or a known Go string.  The
zero value is null. -/
inductive StringValue where
  | null
  | unknown
  | known (value : String)
deriving DecidableEq, Repr

/-- The framework's `types.Int64`. -/
inductive Int64Value where
  | null
  | unknown
  | known (value : Int)
deriving DecidableEq, Repr

/-- The framework's `types.Bool`.  The zero value is null. -/
inductive BoolValue where
  | null
  | unknown
  | known (value : Bool)
deriving DecidableEq, Repr

/-- `ValueString()`: the known value, or `""` when null or unknown. -/
def StringValue.ValueString : StringValue → String
  | .known s => s
  | _ => ""

/-- `IsNull()`. -/
def StringValue.IsNull : StringValue → Bool
  | .null => true
  | _ => false

/-- `IsUnknown()`. -/
def StringValue.IsUnknown : StringValue → Bool
  | .unknown => true
  | _ => false

/-- `Equal(other)`: same state and, when known, the same value. -/
def StringValue.Equal (s o : StringValue) : Bool :=
  match s, o with
  | .null, .null => true
  | .unknown, .unknown => true
  | .known a, .known b => a == b
  | _, _ => false

/-- `ValueBool()`: the known value, or `false` when null or unknown. -/
def BoolValue.ValueBool : BoolValue → Bool
  | .known b => b
  | _ => false

end basetypes

namespace diag

/-- Severity of a diagnostic. -/
inductive Severity where
  | Error
  | Warning
deriving DecidableEq, Repr

/-- A diagnostic: severity, summary, detail, and the attribute path of a
diagnostic that has one (`none` for the plain diagnostics `AddError` and
`AddWarning` make).  Two diagnostics are `Equal` when all four agree. -/
structure Diagnostic where
  Severity : Severity
  Summary : String
  Detail : String
  Path : Option (List String)
deriving DecidableEq, Repr

/-- The framework's `diag.Diagnostics`. -/
abbrev Diagnostics := List Diagnostic

/-- `Diagnostics.Append(in...)`: appends each diagnostic that is not already
contained. -/
def Diagnostics.Append (diags : Diagnostics) (inp : List Diagnostic) : Diagnostics :=
  inp.foldl (fun acc d => if d ∈ acc then acc else acc ++ [d]) diags

/-- `Diagnostics.AddError(summary, detail)`. -/
def Diagnostics.AddError (diags : Diagnostics) (summary detail : String) : Diagnostics :=
  Diagnostics.Append diags [⟨.Error, summary, detail, none⟩]

/-- `Diagnostics.AddWarning(summary, detail)`. -/
def Diagnostics.AddWarning (diags : Diagnostics) (summary detail : String) : Diagnostics :=
  Diagnostics.Append diags [⟨.Warning, summary, detail, none⟩]

/-- `Diagnostics.HasError()`. -/
def Diagnostics.HasError (diags : Diagnostics) : Bool :=
  diags.any (fun d => d.Severity == .Error)

end diag

namespace client

/-- The GraphQL mutations of the client, named after the Go result type that
selects them. -/
inductive Mutation where
  | SetWarehouseName
  | AddConnection
  | UpdateCredentialsV2
  | TestDatabaseCredentials
  | RemoveConnection
deriving DecidableEq, Repr

/-- The GraphQL queries of the client, named after the Go constant that holds
their text. -/
inductive Query where
  | GetWarehouseQuery
deriving DecidableEq, Repr

/-- A call made on `r.client`, with its variables. -/
inductive Call where
  | ExecRaw (query : Query) (vars : List (String × String))
  | Mutate (mutation : Mutation) (vars : List (String × String))
deriving DecidableEq, Repr

/-- Whether a call is a mutation. -/
def Call.IsMutation : Call → Bool
  | .Mutate _ _ => true
  | .ExecRaw _ _ => false

/-- Modelled from the spec: the declaration of `client.RemoveConnection` is not
in the source file; `Success` is the one field `Delete` reads
(`removeResult.RemoveConnection.Success`). -/
structure RemoveConnection where
  Success : Bool
deriving DecidableEq, Repr

/-- Modelled from the spec: one entry of `GetWarehouse.Connections`, with the
fields `Read` accesses. -/
structure Connection where
  Uuid : String
  Type_ : String
  CreatedOn : String
  UpdatedOn : String
deriving DecidableEq, Repr

/-- Modelled from the spec: the object behind the `GetWarehouse` pointer, with
the fields `Read` accesses (`DataCollectorUuid` is `DataCollector.Uuid`). -/
structure Warehouse where
  Name : String
  Connections : List Connection
  DataCollectorUuid : String
deriving DecidableEq, Repr

set_option linter.dupNamespace false in
/-- Modelled from the spec: `client.GetWarehouse`, the decoded answer of the
fetch-warehouse query; `none` is the nil pointer. -/
structure GetWarehouse where
  GetWarehouse : Option Warehouse
deriving DecidableEq, Repr

/-- What `ExecRaw` returned and what `json.Unmarshal` makes of the bytes: the
raw response text, the error (`none` is nil, otherwise `err.Error()`), and the
result of decoding (`Except.error` carries `jsonErr.Error()`). -/
structure ExecRawResult where
  bytes : String
  err : Option String
  decoded : Except String GetWarehouse

/-- The fetch gave an answer that decodes to `r`: it is not an error without
bytes (the case `Read` stops at before decoding; `json.Unmarshal` rejects empty
input, so bytes that decode are never empty), and its bytes decode to `r`. -/
def ExecRawResult.Responds (e : ExecRawResult) (r : GetWarehouse) : Prop :=
  ¬ (e.err ≠ none ∧ e.bytes.utf8ByteSize = 0) ∧ e.decoded = .ok r

end client

namespace warehouse

open basetypes diag

/-- The nested `credentials` block. -/
structure TransactionalCredentials where
  ConnectionUuid : StringValue
  Host : StringValue
  Port : Int64Value
  Database : StringValue
  Username : StringValue
  Password : StringValue
  UpdatedAt : StringValue
deriving DecidableEq, Repr

/-- The resource data model of schema version 1. -/
structure TransactionalWarehouseResourceModel where
  Uuid : StringValue
  Name : StringValue
  DbType : StringValue
  CollectorUuid : StringValue
  Credentials : TransactionalCredentials
  DeletionProtection : BoolValue
deriving DecidableEq, Repr

/-- The `configuration` block of schema version 0. -/
structure ConfigurationV0 where
  Host : StringValue
  Port : Int64Value
  Database : StringValue
  Username : StringValue
  Password : StringValue
deriving DecidableEq, Repr

/-- The resource data model of schema version 0. -/
structure TransactionalWarehouseResourceModelVO where
  Uuid : StringValue
  ConnectionUuid : StringValue
  Name : StringValue
  DbType : StringValue
  CollectorUuid : StringValue
  Configuration : ConfigurationV0
  DeletionProtection : BoolValue
deriving DecidableEq, Repr

/-- A request carrying a state: what `req.State.Get(ctx, &data)` decodes and
the diagnostics it returns. -/
structure StateRequest (α : Type) where
  State : α
  GetDiags : Diagnostics

/-- What a handler did to `resp.State`: left it as it came, replaced it with
`State.Set`, or dropped it with `State.RemoveResource`. -/
inductive StateAction where
  | Kept
  | Set (data : TransactionalWarehouseResourceModel)
  | Removed
deriving DecidableEq, Repr

/-- The response of `Delete`, with the client calls it made. -/
structure DeleteResponse where
  Diagnostics : Diagnostics
  Calls : List client.Call
deriving DecidableEq, Repr

/-- `TransactionalWarehouseResource.Delete`.  `Mutate` is the answer of the
remote side to the remove-connection mutation, looked at only when the call is
made: an error message (`err.Error()`), or the decoded result. -/
def Delete (Mutate : Except String client.RemoveConnection)
    (req : StateRequest TransactionalWarehouseResourceModel) : DeleteResponse :=
  let data := req.State
  let diags := Diagnostics.Append [] req.GetDiags
  if diags.HasError then
    ⟨diags, []⟩
  else if data.DeletionProtection.ValueBool then
    ⟨diags.AddError
      ("Failed to delete warehouse because deletion_protection is set to true. " ++
        "Set it to false to proceed with warehouse deletion")
      ("Deletion protection flag will prevent this resource deletion even if it was already deleted " ++
        "from the real system. For reasons why this is preferred behaviour check out documentation."),
      []⟩
  else
    let vars := [("connectionId", data.Credentials.ConnectionUuid.ValueString)]
    let calls := [client.Call.Mutate .RemoveConnection vars]
    match Mutate with
    | .error err =>
      ⟨diags.AddError ("MC client 'RemoveConnection' mutation result - " ++ err) "", calls⟩
    | .ok removeResult =>
      if !removeResult.Success then
        ⟨diags.AddWarning
          ("MC client 'RemoveConnection' mutation - success = false, " ++
            "connection probably already doesn't exists. This resource will continue with its deletion")
          "", calls⟩
      else
        ⟨diags, calls⟩

/-- The response of `Read`: diagnostics, what happened to the state, and the
client calls made. -/
structure ReadResponse where
  Diagnostics : Diagnostics
  State : StateAction
  Calls : List client.Call
deriving DecidableEq, Repr

/-- The value `readCredentials` starts from: every field null. -/
def Read.nullCredentials : TransactionalCredentials :=
  ⟨.null, .null, .null, .null, .null, .null, .null⟩

/-- The loop of `Read` over `getResult.GetWarehouse.Connections`.  It returns
the final `readCredentials`, or the connection at which the loop returned
because of its type. -/
def Read.scanConnections (TrxConnectionTypeResponse : String)
    (data : TransactionalWarehouseResourceModel) :
    List client.Connection → TransactionalCredentials →
      Except client.Connection TransactionalCredentials
  | [], readCredentials => .ok readCredentials
  | connection :: rest, readCredentials =>
    if connection.Uuid = data.Credentials.ConnectionUuid.ValueString then
      if connection.Type_ ≠ TrxConnectionTypeResponse then
        .error connection
      else
        let readCredentials1 := data.Credentials
        let readCredentials2 :=
          { readCredentials1 with UpdatedAt := StringValue.known connection.UpdatedOn }
        let readCredentials3 :=
          if connection.UpdatedOn = "" then
            { readCredentials2 with UpdatedAt := StringValue.known connection.CreatedOn }
          else readCredentials2
        Read.scanConnections TrxConnectionTypeResponse data rest readCredentials3
    else
      Read.scanConnections TrxConnectionTypeResponse data rest readCredentials

/-- The part of `Read` after the fetched warehouse is known to be there
(`readCollectorUuid := ...` to the end): the collector check, the loop over the
connections, the placeholder for drifted credentials and `resp.State.Set`.
`diags` and `calls` are the diagnostics and client calls so far. -/
def Read.reconcile (TrxConnectionTypeResponse : String)
    (StateSet : TransactionalWarehouseResourceModel → Diagnostics)
    (data : TransactionalWarehouseResourceModel) (diags : Diagnostics)
    (calls : List client.Call) (wh : client.Warehouse) : ReadResponse :=
  let readCollectorUuid := wh.DataCollectorUuid
  let confCollectorUuid := data.CollectorUuid.ValueString
  if readCollectorUuid ≠ confCollectorUuid then
    ⟨diags.AddWarning
      ("Obtained Transactional warehouse with [uuid: " ++ data.Uuid.ValueString ++
        "] but its Data " ++
        "Collector UUID does not match with configured value [obtained: " ++
        readCollectorUuid ++ ", configured: " ++ confCollectorUuid ++ "]. Transactional " ++
        "warehouse might have been moved to other Data Collector externally. This resource will be removed " ++
        "from the Terraform state without deletion.")
      "", .Removed, calls⟩
  else
    match Read.scanConnections TrxConnectionTypeResponse data wh.Connections
        Read.nullCredentials with
    | .error connection =>
      ⟨diags.AddError
        ("Obtained Warehouse [uuid: " ++ data.Uuid.ValueString ++ ", connection_uuid: " ++
          connection.Uuid ++ "] but got unexpected connection " ++
          "type '" ++ connection.Type_ ++ "'")
        "Users can manually fix remote state or delete this resource from the Terraform configuration.",
        .Kept, calls⟩
    | .ok readCredentials =>
      let readCredentials1 :=
        if !readCredentials.ConnectionUuid.IsNull &&
            !readCredentials.UpdatedAt.Equal data.Credentials.UpdatedAt then
          { readCredentials with
            Host := StringValue.known "(unknown remote value)"
            Port := Int64Value.known (-1)
            Database := StringValue.known "(unknown remote value)"
            Username := StringValue.known "(unknown remote value)"
            Password := StringValue.known "(unknown remote value)" }
        else readCredentials
      let data1 := { data with Credentials := readCredentials1 }
      let data2 := { data1 with Name := StringValue.known wh.Name }
      ⟨diags.Append (StateSet data2), .Set data2, calls⟩

/-- `TransactionalWarehouseResource.Read`.  `TrxConnectionTypeResponse` is the
client constant of that name, `StateSet` the diagnostics `resp.State.Set`
returns, `exec` the outcome of the fetch-warehouse call. -/
def Read (TrxConnectionTypeResponse : String)
    (StateSet : TransactionalWarehouseResourceModel → Diagnostics)
    (req : StateRequest TransactionalWarehouseResourceModel)
    (exec : client.ExecRawResult) : ReadResponse :=
  let data := req.State
  let diags := Diagnostics.Append [] req.GetDiags
  if diags.HasError then
    ⟨diags, .Kept, []⟩
  else
    let vars := [("uuid", data.Uuid.ValueString)]
    let calls := [client.Call.ExecRaw .GetWarehouseQuery vars]
    if exec.err ≠ none ∧ exec.bytes.utf8ByteSize = 0 then
      ⟨diags.AddError ("MC client 'GetWarehouse' query result - " ++ exec.err.getD "") "",
        .Kept, calls⟩
    else
      match exec.decoded with
      | .error jsonErr =>
        ⟨diags.AddError ("MC client 'GetWarehouse' query failed to unmarshal data - " ++ jsonErr) "",
          .Kept, calls⟩
      | .ok getResult =>
        match getResult.GetWarehouse with
        | none =>
          let toPrint := "MC client 'GetWarehouse' query failed to find warehouse [uuid: " ++
            data.Uuid.ValueString ++ "]. " ++
            "This resource will be removed from the Terraform state without deletion."
          let toPrint1 := match exec.err with
            | some err => toPrint ++ " - " ++ err
            | none => toPrint
          ⟨diags.AddWarning toPrint1 "", .Removed, calls⟩
        | some wh =>
          Read.reconcile TrxConnectionTypeResponse StateSet data diags calls wh

end warehouse

namespace strings

/-- Go's `strings.Split(s, sep)` for a separator of one character: the pieces
of `s` between the occurrences of `sep`, in order (one piece more than there
are occurrences; `[""]` for the empty string).  Go splits the bytes of `s`; for
the one-byte separator `,` and a UTF-8 string that is the split of its
characters. -/
def Split (s : String) (sep : Char) : List String :=
  (s.data.splitOn sep).map String.mk

end strings

namespace warehouse

open basetypes diag

/-- The response of `ImportState`: diagnostics and the `State.SetAttribute`
calls made, as path and value, in order. -/
structure ImportStateResponse where
  Diagnostics : Diagnostics
  Sets : List (List String × String)
deriving DecidableEq, Repr

/-- `TransactionalWarehouseResource.ImportState` on `req.ID`.  `Quote` is the
rendering of `%q`, `SetAttribute` the diagnostics `resp.State.SetAttribute`
returns for a path and value. -/
def ImportState (Quote : String → String)
    (SetAttribute : List String → String → Diagnostics) (ID : String) :
    ImportStateResponse :=
  let idsImported := strings.Split ID ','
  if idsImported.length = 3 ∧ idsImported.getD 0 "" ≠ "" ∧ idsImported.getD 1 "" ≠ "" ∧
      idsImported.getD 2 "" ≠ "" then
    let diags1 := Diagnostics.Append [] (SetAttribute ["uuid"] (idsImported.getD 0 ""))
    let diags2 := diags1.Append
      (SetAttribute ["credentials", "connection_uuid"] (idsImported.getD 1 ""))
    let diags3 := diags2.Append (SetAttribute ["collector_uuid"] (idsImported.getD 2 ""))
    ⟨diags3,
      [(["uuid"], idsImported.getD 0 ""),
       (["credentials", "connection_uuid"], idsImported.getD 1 ""),
       (["collector_uuid"], idsImported.getD 2 "")]⟩
  else
    ⟨Diagnostics.AddError [] "Unexpected Import Identifier"
      ("Expected import identifier with format: <warehouse_uuid>,<connection_uuid>,<data_collector_uuid>. Got: " ++
        Quote ID), []⟩

/-- The response of a state upgrader: diagnostics and what happened to the
upgraded state. -/
structure UpgradeStateResponse where
  Diagnostics : Diagnostics
  State : StateAction
deriving DecidableEq, Repr

/-- The `StateUpgrader` function registered by `UpgradeState` for prior schema
version 0.  `DeletionProtection` is not named in the composite literal, so it
has the zero value of `types.Bool`, which is null. -/
def UpgradeState.StateUpgrader0
    (StateSet : TransactionalWarehouseResourceModel → Diagnostics)
    (req : StateRequest TransactionalWarehouseResourceModelVO) : UpgradeStateResponse :=
  let priorStateData := req.State
  let diags := Diagnostics.Append [] req.GetDiags
  if !diags.HasError then
    let upgradedStateData : TransactionalWarehouseResourceModel :=
      { Uuid := priorStateData.Uuid
        CollectorUuid := priorStateData.CollectorUuid
        Name := priorStateData.Name
        DbType := priorStateData.DbType
        Credentials :=
          { ConnectionUuid := priorStateData.ConnectionUuid
            Host := priorStateData.Configuration.Host
            Port := priorStateData.Configuration.Port
            Database := priorStateData.Configuration.Database
            Username := priorStateData.Configuration.Username
            Password := priorStateData.Configuration.Password
            UpdatedAt := StringValue.null }
        DeletionProtection := BoolValue.null }
    ⟨diags.Append (StateSet upgradedStateData), .Set upgradedStateData⟩
  else
    ⟨diags, .Kept⟩

end warehouse

/-! ## Concrete states and remote answers -/

/-- The effective timestamp of a remote connection, in the words of the
properties below: `UpdatedOn`, or `CreatedOn` when `UpdatedOn` is empty.  `Read`
does not call it; the loop is shown to compute it. -/
def client.Connection.EffectiveTimestamp (c : client.Connection) : String :=
  if c.UpdatedOn = "" then c.CreatedOn else c.UpdatedOn

namespace warehouse

open basetypes diag

/-- A version-1 state with deletion protection on. -/
def Examples.protectedState : TransactionalWarehouseResourceModel :=
  { Uuid := .known "w1"
    Name := .known "wh"
    DbType := .known "POSTGRES"
    CollectorUuid := .known "d1"
    Credentials :=
      { ConnectionUuid := .known "c1"
        Host := .known "db.local"
        Port := .known 5432
        Database := .known "app"
        Username := .known "user"
        Password := .known "secret"
        UpdatedAt := .known "2024-01-01T00:00:00Z" }
    DeletionProtection := .known true }

/-- The same state with deletion protection off. -/
def Examples.unprotectedState : TransactionalWarehouseResourceModel :=
  { Examples.protectedState with DeletionProtection := .known false }

/-- A version-0 state with deletion protection on. -/
def Examples.protectedStateV0 : TransactionalWarehouseResourceModelVO :=
  { Uuid := .known "w1"
    ConnectionUuid := .known "c1"
    Name := .known "wh"
    DbType := .known "POSTGRES"
    CollectorUuid := .known "d1"
    Configuration :=
      { Host := .known "db.local"
        Port := .known 5432
        Database := .known "app"
        Username := .known "user"
        Password := .known "secret" }
    DeletionProtection := .known true }

/-- The value used for the client constant `TrxConnectionTypeResponse` in the
concrete evaluations. -/
def Examples.trx : String := "TRANSACTIONAL_DB"

/-- A `State.Set` that returns no diagnostics. -/
def Examples.quietSet : TransactionalWarehouseResourceModel → Diagnostics := fun _ => []

/-- The warehouse with its transactional connection `c1`, last updated at the stored time. -/
def Examples.warehouseUnchanged : client.Warehouse :=
  ⟨"wh", [⟨"c1", "TRANSACTIONAL_DB", "2023-06-01T00:00:00Z", "2024-01-01T00:00:00Z"⟩], "d1"⟩

/-- The answer of the fetch-warehouse call carrying `warehouseUnchanged`. -/
def Examples.answerUnchanged : client.ExecRawResult :=
  { bytes := "\x7b\"getWarehouse\":\x7b\"name\":\"wh\",\"connections\":[\x7b\"uuid\":\"c1\",\"type\":\"TRANSACTIONAL_DB\",\"createdOn\":\"2023-06-01T00:00:00Z\",\"updatedOn\":\"2024-01-01T00:00:00Z\"\x7d],\"dataCollector\":\x7b\"uuid\":\"d1\"\x7d\x7d\x7d"
    err := none
    decoded := .ok ⟨some Examples.warehouseUnchanged⟩ }

/-- The warehouse with its transactional connection `c1`, updated after the stored time. -/
def Examples.warehouseChanged : client.Warehouse :=
  ⟨"wh", [⟨"c1", "TRANSACTIONAL_DB", "2023-06-01T00:00:00Z", "2024-02-02T00:00:00Z"⟩], "d1"⟩

/-- The answer of the fetch-warehouse call carrying `warehouseChanged`. -/
def Examples.answerChanged : client.ExecRawResult :=
  { bytes := "\x7b\"getWarehouse\":\x7b\"name\":\"wh\",\"connections\":[\x7b\"uuid\":\"c1\",\"type\":\"TRANSACTIONAL_DB\",\"createdOn\":\"2023-06-01T00:00:00Z\",\"updatedOn\":\"2024-02-02T00:00:00Z\"\x7d],\"dataCollector\":\x7b\"uuid\":\"d1\"\x7d\x7d\x7d"
    err := none
    decoded := .ok ⟨some Examples.warehouseChanged⟩ }

/-- The warehouse with no connection at all. -/
def Examples.warehouseNoConnection : client.Warehouse :=
  ⟨"wh", [], "d1"⟩

/-- The answer of the fetch-warehouse call carrying `warehouseNoConnection`. -/
def Examples.answerNoConnection : client.ExecRawResult :=
  { bytes := "\x7b\"getWarehouse\":\x7b\"name\":\"wh\",\"connections\":[],\"dataCollector\":\x7b\"uuid\":\"d1\"\x7d\x7d\x7d"
    err := none
    decoded := .ok ⟨some Examples.warehouseNoConnection⟩ }

/-- The warehouse whose connection `c1` is of another type. -/
def Examples.warehouseWrongType : client.Warehouse :=
  ⟨"wh", [⟨"c1", "BIGQUERY", "2023-06-01T00:00:00Z", "2024-01-01T00:00:00Z"⟩], "d1"⟩

/-- The answer of the fetch-warehouse call carrying `warehouseWrongType`. -/
def Examples.answerWrongType : client.ExecRawResult :=
  { bytes := "\x7b\"getWarehouse\":\x7b\"name\":\"wh\",\"connections\":[\x7b\"uuid\":\"c1\",\"type\":\"BIGQUERY\",\"createdOn\":\"2023-06-01T00:00:00Z\",\"updatedOn\":\"2024-01-01T00:00:00Z\"\x7d],\"dataCollector\":\x7b\"uuid\":\"d1\"\x7d\x7d\x7d"
    err := none
    decoded := .ok ⟨some Examples.warehouseWrongType⟩ }

/-- The warehouse under another data collector. -/
def Examples.warehouseMoved : client.Warehouse :=
  ⟨"wh", [⟨"c1", "TRANSACTIONAL_DB", "2023-06-01T00:00:00Z", "2024-01-01T00:00:00Z"⟩], "d2"⟩

/-- The answer of the fetch-warehouse call carrying `warehouseMoved`. -/
def Examples.answerMoved : client.ExecRawResult :=
  { bytes := "\x7b\"getWarehouse\":\x7b\"name\":\"wh\",\"connections\":[\x7b\"uuid\":\"c1\",\"type\":\"TRANSACTIONAL_DB\",\"createdOn\":\"2023-06-01T00:00:00Z\",\"updatedOn\":\"2024-01-01T00:00:00Z\"\x7d],\"dataCollector\":\x7b\"uuid\":\"d2\"\x7d\x7d\x7d"
    err := none
    decoded := .ok ⟨some Examples.warehouseMoved⟩ }

/-- A GraphQL answer with an error and a body in which the warehouse is null. -/
def Examples.answerErrorWithBody : client.ExecRawResult :=
  { bytes := "\x7b\"getWarehouse\":null\x7d"
    err := some "Message: Warehouse not found, Locations: []"
    decoded := .ok ⟨none⟩ }

/-- A transport failure: an error and no bytes (which do not decode). -/
def Examples.answerTransportFailure : client.ExecRawResult :=
  { bytes := ""
    err := some "Post \"https://api.getmontecarlo.com/graphql\": dial tcp: i/o timeout"
    decoded := .error "unexpected end of JSON input" }

end warehouse

/-! ## Diagnostics -/

namespace diag

theorem mem_Append (ds : Diagnostics) (inp : List Diagnostic) (d : Diagnostic) :
    d ∈ Diagnostics.Append ds inp ↔ d ∈ ds ∨ d ∈ inp := by
  unfold Diagnostics.Append
  induction inp generalizing ds with
  | nil => simp
  | cons x xs ih =>
    rw [List.foldl_cons, ih]
    by_cases hx : x ∈ ds
    · simp only [hx, if_true, List.mem_cons]
      constructor
      · rintro (h | h)
        · exact Or.inl h
        · exact Or.inr (Or.inr h)
      · rintro (h | h | h)
        · exact Or.inl h
        · exact Or.inl (h ▸ hx)
        · exact Or.inr h
    · simp only [hx, if_false, List.mem_append, List.mem_singleton, List.mem_cons]
      tauto

theorem HasError_iff (ds : Diagnostics) :
    ds.HasError = true ↔ ∃ d ∈ ds, d.Severity = Severity.Error := by
  simp [Diagnostics.HasError]

theorem HasError_Append (ds : Diagnostics) (inp : List Diagnostic) :
    (Diagnostics.Append ds inp).HasError = (ds.HasError || Diagnostics.HasError inp) := by
  rw [Bool.eq_iff_iff, Bool.or_eq_true, HasError_iff, HasError_iff, HasError_iff]
  constructor
  · rintro ⟨d, hd, he⟩
    rcases (mem_Append ds inp d).1 hd with h | h
    · exact Or.inl ⟨d, h, he⟩
    · exact Or.inr ⟨d, h, he⟩
  · rintro (⟨d, hd, he⟩ | ⟨d, hd, he⟩)
    · exact ⟨d, (mem_Append ds inp d).2 (Or.inl hd), he⟩
    · exact ⟨d, (mem_Append ds inp d).2 (Or.inr hd), he⟩

theorem HasError_Append_nil (inp : List Diagnostic) :
    (Diagnostics.Append [] inp).HasError = Diagnostics.HasError inp := by
  rw [HasError_Append]; rfl

theorem HasError_AddWarning (ds : Diagnostics) (summary detail : String) :
    (ds.AddWarning summary detail).HasError = ds.HasError := by
  unfold Diagnostics.AddWarning
  rw [HasError_Append]
  simp [Diagnostics.HasError]

theorem mem_AddError (ds : Diagnostics) (summary detail : String) :
    (⟨Severity.Error, summary, detail, none⟩ : Diagnostic) ∈ ds.AddError summary detail := by
  unfold Diagnostics.AddError
  rw [mem_Append]
  exact Or.inr (List.mem_singleton.2 rfl)

theorem mem_AddWarning (ds : Diagnostics) (summary detail : String) :
    (⟨Severity.Warning, summary, detail, none⟩ : Diagnostic) ∈ ds.AddWarning summary detail := by
  unfold Diagnostics.AddWarning
  rw [mem_Append]
  exact Or.inr (List.mem_singleton.2 rfl)

end diag

namespace warehouse

open basetypes diag

/-! ## Delete -/

/-- C1: for a prior state that decodes without error, `Delete` with
`deletion_protection` true adds an error diagnostic and makes no client call,
whatever the remote side would answer; with `deletion_protection` not true
(false, null or unknown) it makes exactly one client call, the
remove-connection mutation with `connectionId` the stored
`credentials.connection_uuid`. -/
theorem Delete_gated_by_deletion_protection
    (Mutate : Except String client.RemoveConnection)
    (req : StateRequest TransactionalWarehouseResourceModel)
    (hdec : Diagnostics.HasError req.GetDiags = false) :
    (req.State.DeletionProtection = BoolValue.known true →
      (∃ d ∈ (Delete Mutate req).Diagnostics, d.Severity = Severity.Error) ∧
      (Delete Mutate req).Calls = []) ∧
    (req.State.DeletionProtection ≠ BoolValue.known true →
      (Delete Mutate req).Calls =
        [client.Call.Mutate client.Mutation.RemoveConnection
          [("connectionId", req.State.Credentials.ConnectionUuid.ValueString)]]) := by
  have h0 : (Diagnostics.Append [] req.GetDiags).HasError = false := by
    rw [HasError_Append_nil]; exact hdec
  constructor
  · intro hp
    have hv : req.State.DeletionProtection.ValueBool = true := by rw [hp]; rfl
    simp only [Delete, h0, hv, if_true, Bool.false_eq_true, if_false]
    exact ⟨⟨_, mem_AddError _ _ _, rfl⟩, trivial⟩
  · intro hp
    have hv : req.State.DeletionProtection.ValueBool = false := by
      cases hd : req.State.DeletionProtection with
      | null => rfl
      | unknown => rfl
      | known b =>
        cases b with
        | false => rfl
        | true => exact absurd hd hp
    simp only [Delete, h0, hv, Bool.false_eq_true, if_false]
    cases Mutate with
    | error e => rfl
    | ok r => cases r with | mk b => cases b <;> rfl

/-! ## Read -/

/-- The connection loop leaves `readCredentials` alone when no connection has
the stored uuid. -/
theorem Read.scanConnections_no_match (trx : String)
    (data : TransactionalWarehouseResourceModel) (conns : List client.Connection)
    (rc : TransactionalCredentials)
    (h : ∀ c ∈ conns, c.Uuid ≠ data.Credentials.ConnectionUuid.ValueString) :
    Read.scanConnections trx data conns rc = .ok rc := by
  induction conns generalizing rc with
  | nil => rfl
  | cons c cs ih =>
    have hc := h c (List.mem_cons_self c cs)
    simp only [Read.scanConnections, hc, if_false]
    exact ih rc (fun x hx => h x (List.mem_cons_of_mem c hx))

/-- When every connection with the stored uuid is transactional and has the
effective timestamp `ts`, the loop ends with the stored credentials stamped
`ts` if there was such a connection, and with what it started from if not. -/
theorem Read.scanConnections_ok (trx : String)
    (data : TransactionalWarehouseResourceModel) (ts : String)
    (conns : List client.Connection) (rc : TransactionalCredentials)
    (h : ∀ c ∈ conns, c.Uuid = data.Credentials.ConnectionUuid.ValueString →
      c.Type_ = trx ∧ c.EffectiveTimestamp = ts) :
    Read.scanConnections trx data conns rc =
      .ok (if conns.any (fun c => c.Uuid == data.Credentials.ConnectionUuid.ValueString) then
        { data.Credentials with UpdatedAt := StringValue.known ts } else rc) := by
  induction conns generalizing rc with
  | nil => rfl
  | cons c cs ih =>
    have hcs : ∀ x ∈ cs, x.Uuid = data.Credentials.ConnectionUuid.ValueString →
        x.Type_ = trx ∧ x.EffectiveTimestamp = ts :=
      fun x hx => h x (List.mem_cons_of_mem c hx)
    by_cases hm : c.Uuid = data.Credentials.ConnectionUuid.ValueString
    · obtain ⟨hty, hts⟩ := h c (List.mem_cons_self c cs) hm
      have hstep : (if c.UpdatedOn = "" then
            { ({ data.Credentials with UpdatedAt := StringValue.known c.UpdatedOn } :
                TransactionalCredentials) with UpdatedAt := StringValue.known c.CreatedOn }
          else { data.Credentials with UpdatedAt := StringValue.known c.UpdatedOn }) =
          ({ data.Credentials with UpdatedAt := StringValue.known ts } :
            TransactionalCredentials) := by
        unfold client.Connection.EffectiveTimestamp at hts
        by_cases hu : c.UpdatedOn = ""
        · rw [if_pos hu] at hts ⊢; rw [hts]
        · rw [if_neg hu] at hts ⊢; rw [hts]
      simp only [Read.scanConnections, hm, hty, if_true, ne_eq, not_true_eq_false, if_false,
        List.any_cons, beq_self_eq_true, Bool.true_or]
      rw [hstep, ih _ hcs]
      simp
    · have hb : (c.Uuid == data.Credentials.ConnectionUuid.ValueString) = false := by
        simpa using hm
      simp only [Read.scanConnections, hm, if_false, List.any_cons, hb, Bool.false_or]
      exact ih rc hcs

/-- The loop returns at a connection with the stored uuid and another type as
soon as there is one. -/
theorem Read.scanConnections_error (trx : String)
    (data : TransactionalWarehouseResourceModel) (conns : List client.Connection)
    (rc : TransactionalCredentials)
    (h : ∃ c ∈ conns, c.Uuid = data.Credentials.ConnectionUuid.ValueString ∧ c.Type_ ≠ trx) :
    ∃ c, Read.scanConnections trx data conns rc = .error c := by
  induction conns generalizing rc with
  | nil => obtain ⟨c, hc, _⟩ := h; cases hc
  | cons x xs ih =>
    by_cases hm : x.Uuid = data.Credentials.ConnectionUuid.ValueString
    · by_cases hty : x.Type_ = trx
      · have hrest : ∃ c ∈ xs, c.Uuid = data.Credentials.ConnectionUuid.ValueString ∧
            c.Type_ ≠ trx := by
          obtain ⟨c, hc, hu, ht⟩ := h
          rcases List.mem_cons.1 hc with rfl | hc
          · exact absurd hty ht
          · exact ⟨c, hc, hu, ht⟩
        simp only [Read.scanConnections, hm, hty, if_true, ne_eq, not_true_eq_false, if_false]
        exact ih _ hrest
      · exact ⟨x, by simp [Read.scanConnections, hm, hty]⟩
    · have hrest : ∃ c ∈ xs, c.Uuid = data.Credentials.ConnectionUuid.ValueString ∧
          c.Type_ ≠ trx := by
        obtain ⟨c, hc, hu, ht⟩ := h
        rcases List.mem_cons.1 hc with rfl | hc
        · exact absurd hu hm
        · exact ⟨c, hc, hu, ht⟩
      simp only [Read.scanConnections, hm, if_false]
      exact ih rc hrest

/-- Once the state decodes and the fetch answers with a warehouse, `Read` is
its reconciling part. -/
theorem Read_of_warehouse (trx : String)
    (StateSet : TransactionalWarehouseResourceModel → Diagnostics)
    (req : StateRequest TransactionalWarehouseResourceModel)
    (exec : client.ExecRawResult) (wh : client.Warehouse)
    (hdec : Diagnostics.HasError req.GetDiags = false)
    (hresp : exec.Responds ⟨some wh⟩) :
    Read trx StateSet req exec =
      Read.reconcile trx StateSet req.State (Diagnostics.Append [] req.GetDiags)
        [client.Call.ExecRaw client.Query.GetWarehouseQuery
          [("uuid", req.State.Uuid.ValueString)]] wh := by
  have h0 : (Diagnostics.Append [] req.GetDiags).HasError = false := by
    rw [HasError_Append_nil]; exact hdec
  obtain ⟨hgate, hok⟩ := hresp
  simp only [Read, h0, Bool.false_eq_true, if_false, hgate, hok]

/-- Once the state decodes and the fetch answers without a warehouse, `Read`
warns and removes the resource. -/
theorem Read_of_no_warehouse (trx : String)
    (StateSet : TransactionalWarehouseResourceModel → Diagnostics)
    (req : StateRequest TransactionalWarehouseResourceModel)
    (exec : client.ExecRawResult)
    (hdec : Diagnostics.HasError req.GetDiags = false)
    (hresp : exec.Responds ⟨none⟩) :
    ∃ msg, Read trx StateSet req exec =
      ⟨(Diagnostics.Append [] req.GetDiags).AddWarning msg "", StateAction.Removed,
        [client.Call.ExecRaw client.Query.GetWarehouseQuery
          [("uuid", req.State.Uuid.ValueString)]]⟩ := by
  have h0 : (Diagnostics.Append [] req.GetDiags).HasError = false := by
    rw [HasError_Append_nil]; exact hdec
  obtain ⟨hgate, hok⟩ := hresp
  simp only [Read, h0, Bool.false_eq_true, if_false, hgate, hok]
  exact ⟨_, rfl⟩

/-- `Equal` holds exactly between equal values. -/
theorem StringValue_Equal_iff (s o : StringValue) : s.Equal o = true ↔ s = o := by
  cases s <;> cases o <;> simp [StringValue.Equal]

/-- C3: when the prior state decodes, the fetch answers with a warehouse under
the stored collector, some connection has the stored connection uuid, and every
connection with that uuid is transactional with an effective timestamp equal to
the stored `credentials.updated_at`, `Read` writes a state whose credentials
block is the stored one (the state written is the stored state with the remote
name). -/
theorem Read_unchanged_timestamp_keeps_credentials (trx : String)
    (StateSet : TransactionalWarehouseResourceModel → Diagnostics)
    (req : StateRequest TransactionalWarehouseResourceModel)
    (exec : client.ExecRawResult) (wh : client.Warehouse)
    (hdec : Diagnostics.HasError req.GetDiags = false)
    (hresp : exec.Responds ⟨some wh⟩)
    (hcoll : wh.DataCollectorUuid = req.State.CollectorUuid.ValueString)
    (hex : ∃ c ∈ wh.Connections, c.Uuid = req.State.Credentials.ConnectionUuid.ValueString)
    (hall : ∀ c ∈ wh.Connections, c.Uuid = req.State.Credentials.ConnectionUuid.ValueString →
      c.Type_ = trx ∧ StringValue.known c.EffectiveTimestamp = req.State.Credentials.UpdatedAt) :
    ∃ m, (Read trx StateSet req exec).State = StateAction.Set m ∧
      m.Credentials = req.State.Credentials ∧
      m = { req.State with Name := StringValue.known wh.Name } := by
  obtain ⟨c0, hc0, hu0⟩ := hex
  have hts0 := (hall c0 hc0 hu0).2
  have hall2 : ∀ c ∈ wh.Connections,
      c.Uuid = req.State.Credentials.ConnectionUuid.ValueString →
      c.Type_ = trx ∧ c.EffectiveTimestamp = c0.EffectiveTimestamp := by
    intro c hc hu
    obtain ⟨hty, hts⟩ := hall c hc hu
    refine ⟨hty, ?_⟩
    have := hts.trans hts0.symm
    exact StringValue.known.inj this
  have hany : wh.Connections.any
      (fun c => c.Uuid == req.State.Credentials.ConnectionUuid.ValueString) = true :=
    List.any_eq_true.2 ⟨c0, hc0, by simpa using hu0⟩
  have hcred : ({ req.State.Credentials with
      UpdatedAt := StringValue.known c0.EffectiveTimestamp } : TransactionalCredentials) =
      req.State.Credentials := by
    rw [hts0]
  have heq : (req.State.Credentials.UpdatedAt.Equal req.State.Credentials.UpdatedAt) = true :=
    (StringValue_Equal_iff _ _).2 rfl
  rw [Read_of_warehouse trx StateSet req exec wh hdec hresp]
  simp only [Read.reconcile, hcoll, ne_eq, not_true_eq_false, if_false,
    Read.scanConnections_ok trx req.State c0.EffectiveTimestamp wh.Connections _ hall2, hany,
    if_true, hcred, heq, Bool.not_true, Bool.and_false, Bool.false_eq_true]
  exact ⟨_, rfl, rfl, rfl⟩

/-- C4: when the prior state decodes with a known `credentials.connection_uuid`,
the fetch answers with a warehouse under the stored collector, some connection
has the stored connection uuid, and every connection with that uuid is
transactional with effective timestamp `ts` different from the stored
`credentials.updated_at`, `Read` writes a state whose credentials keep
`connection_uuid`, have host, database, username and password
`"(unknown remote value)"`, port `-1`, and `updated_at` equal to `ts`. -/
theorem Read_changed_timestamp_writes_placeholder (trx : String)
    (StateSet : TransactionalWarehouseResourceModel → Diagnostics)
    (req : StateRequest TransactionalWarehouseResourceModel)
    (exec : client.ExecRawResult) (wh : client.Warehouse) (ts : String)
    (hdec : Diagnostics.HasError req.GetDiags = false)
    (hknown : ∃ u, req.State.Credentials.ConnectionUuid = StringValue.known u)
    (hresp : exec.Responds ⟨some wh⟩)
    (hcoll : wh.DataCollectorUuid = req.State.CollectorUuid.ValueString)
    (hex : ∃ c ∈ wh.Connections, c.Uuid = req.State.Credentials.ConnectionUuid.ValueString)
    (hall : ∀ c ∈ wh.Connections, c.Uuid = req.State.Credentials.ConnectionUuid.ValueString →
      c.Type_ = trx ∧ c.EffectiveTimestamp = ts)
    (hne : StringValue.known ts ≠ req.State.Credentials.UpdatedAt) :
    ∃ m, (Read trx StateSet req exec).State = StateAction.Set m ∧
      m.Credentials =
        { ConnectionUuid := req.State.Credentials.ConnectionUuid
          Host := StringValue.known "(unknown remote value)"
          Port := Int64Value.known (-1)
          Database := StringValue.known "(unknown remote value)"
          Username := StringValue.known "(unknown remote value)"
          Password := StringValue.known "(unknown remote value)"
          UpdatedAt := StringValue.known ts } := by
  obtain ⟨c0, hc0, hu0⟩ := hex
  obtain ⟨u, hu⟩ := hknown
  have hany : wh.Connections.any
      (fun c => c.Uuid == req.State.Credentials.ConnectionUuid.ValueString) = true :=
    List.any_eq_true.2 ⟨c0, hc0, by simpa using hu0⟩
  have hnull : req.State.Credentials.ConnectionUuid.IsNull = false := by rw [hu]; rfl
  have heq : ((StringValue.known ts).Equal req.State.Credentials.UpdatedAt) = false := by
    rw [Bool.eq_false_iff]
    exact fun h => hne ((StringValue_Equal_iff _ _).1 h)
  rw [Read_of_warehouse trx StateSet req exec wh hdec hresp]
  simp only [Read.reconcile, hcoll, ne_eq, not_true_eq_false, if_false,
    Read.scanConnections_ok trx req.State ts wh.Connections _ hall, hany,
    if_true, hnull, heq, Bool.not_false, Bool.and_self]
  exact ⟨_, rfl, rfl⟩

/-- C6, as the code has it: when the prior state decodes, the fetch answers with
a warehouse under the stored collector and no connection has the stored
connection uuid, `Read` keeps the resource: it writes the stored state with
every field of the credentials block null and the remote name, and adds no
diagnostic of its own. -/
theorem Read_missing_connection_nulls_credentials (trx : String)
    (StateSet : TransactionalWarehouseResourceModel → Diagnostics)
    (req : StateRequest TransactionalWarehouseResourceModel)
    (exec : client.ExecRawResult) (wh : client.Warehouse)
    (hdec : Diagnostics.HasError req.GetDiags = false)
    (hresp : exec.Responds ⟨some wh⟩)
    (hcoll : wh.DataCollectorUuid = req.State.CollectorUuid.ValueString)
    (hno : ∀ c ∈ wh.Connections,
      c.Uuid ≠ req.State.Credentials.ConnectionUuid.ValueString) :
    (Read trx StateSet req exec).State =
      StateAction.Set { req.State with
        Credentials := ⟨.null, .null, .null, .null, .null, .null, .null⟩
        Name := StringValue.known wh.Name } ∧
    (Read trx StateSet req exec).Diagnostics =
      (Diagnostics.Append [] req.GetDiags).Append
        (StateSet { req.State with
          Credentials := ⟨.null, .null, .null, .null, .null, .null, .null⟩
          Name := StringValue.known wh.Name }) := by
  rw [Read_of_warehouse trx StateSet req exec wh hdec hresp]
  simp only [Read.reconcile, hcoll, ne_eq, not_true_eq_false, if_false,
    Read.scanConnections_no_match trx req.State wh.Connections _ hno]
  exact ⟨rfl, rfl⟩

/-- C7, as the code has it: when the prior state decodes, the fetch answers with
a warehouse under the stored collector and a connection with the stored
connection uuid has a type other than the transactional one, `Read` adds an
error diagnostic and returns with the state as it came: it neither writes nor
removes the resource. -/
theorem Read_wrong_connection_type_is_error (trx : String)
    (StateSet : TransactionalWarehouseResourceModel → Diagnostics)
    (req : StateRequest TransactionalWarehouseResourceModel)
    (exec : client.ExecRawResult) (wh : client.Warehouse)
    (hdec : Diagnostics.HasError req.GetDiags = false)
    (hresp : exec.Responds ⟨some wh⟩)
    (hcoll : wh.DataCollectorUuid = req.State.CollectorUuid.ValueString)
    (hbad : ∃ c ∈ wh.Connections,
      c.Uuid = req.State.Credentials.ConnectionUuid.ValueString ∧ c.Type_ ≠ trx) :
    (∃ d ∈ (Read trx StateSet req exec).Diagnostics, d.Severity = Severity.Error) ∧
    (Read trx StateSet req exec).State = StateAction.Kept := by
  obtain ⟨c, hc⟩ := Read.scanConnections_error trx req.State wh.Connections
    Read.nullCredentials hbad
  rw [Read_of_warehouse trx StateSet req exec wh hdec hresp]
  simp only [Read.reconcile, hcoll, ne_eq, not_true_eq_false, if_false, hc]
  exact ⟨⟨_, mem_AddError _ _ _, rfl⟩, trivial⟩

/-- C8: when the prior state decodes and the fetch gives a decodable answer in
which the warehouse is missing or stands under a data collector other than the
stored one, `Read` removes the resource (so writes no state), adds one warning,
which is then among its diagnostics with severity warning, has no error among
its diagnostics, and makes no mutation. -/
theorem Read_removes_missing_or_moved_warehouse (trx : String)
    (StateSet : TransactionalWarehouseResourceModel → Diagnostics)
    (req : StateRequest TransactionalWarehouseResourceModel)
    (exec : client.ExecRawResult) (r : client.GetWarehouse)
    (hdec : Diagnostics.HasError req.GetDiags = false)
    (hresp : exec.Responds r)
    (hcase : r.GetWarehouse = none ∨
      ∃ wh, r.GetWarehouse = some wh ∧
        wh.DataCollectorUuid ≠ req.State.CollectorUuid.ValueString) :
    (Read trx StateSet req exec).State = StateAction.Removed ∧
    (∃ msg, (Read trx StateSet req exec).Diagnostics =
        (Diagnostics.Append [] req.GetDiags).AddWarning msg "" ∧
      (⟨Severity.Warning, msg, "", none⟩ : Diagnostic) ∈
        (Read trx StateSet req exec).Diagnostics) ∧
    (Read trx StateSet req exec).Diagnostics.HasError = false ∧
    (∀ c ∈ (Read trx StateSet req exec).Calls, c.IsMutation = false) ∧
    (∃ d ∈ (Read trx StateSet req exec).Diagnostics, d.Severity = Severity.Warning) := by
  have h0 : (Diagnostics.Append [] req.GetDiags).HasError = false := by
    rw [HasError_Append_nil]; exact hdec
  have hcalls : ∀ c ∈ [client.Call.ExecRaw client.Query.GetWarehouseQuery
      [("uuid", req.State.Uuid.ValueString)]], c.IsMutation = false := by
    intro c hc
    rw [List.mem_singleton.1 hc]
    rfl
  obtain ⟨g⟩ := r
  rcases hcase with hnone | ⟨wh, hsome, hne⟩
  · simp only at hnone
    subst hnone
    obtain ⟨msg, hmsg⟩ := Read_of_no_warehouse trx StateSet req exec hdec hresp
    rw [hmsg]
    exact ⟨rfl, ⟨msg, rfl, mem_AddWarning _ msg ""⟩, by rw [HasError_AddWarning]; exact h0,
      hcalls, ⟨Severity.Warning, msg, "", none⟩, mem_AddWarning _ msg "", rfl⟩
  · simp only at hsome
    subst hsome
    rw [Read_of_warehouse trx StateSet req exec wh hdec hresp]
    simp only [Read.reconcile, ne_eq, hne, not_false_eq_true, if_true]
    exact ⟨trivial, ⟨_, rfl, mem_AddWarning _ _ ""⟩, by rw [HasError_AddWarning]; exact h0,
      hcalls, ⟨Severity.Warning, _, "", none⟩, mem_AddWarning _ _ "", rfl⟩

/-- C9, as the code has it: when the prior state decodes and the client returns
a non-nil error with no response bytes, or with bytes that do not decode,
`Read` adds an error diagnostic and returns with the state as it came: it
neither writes nor removes the resource. -/
theorem Read_error_without_decodable_answer_is_fatal (trx : String)
    (StateSet : TransactionalWarehouseResourceModel → Diagnostics)
    (req : StateRequest TransactionalWarehouseResourceModel)
    (exec : client.ExecRawResult)
    (hdec : Diagnostics.HasError req.GetDiags = false)
    (herr : exec.err ≠ none)
    (hbody : exec.bytes.utf8ByteSize = 0 ∨ ∃ e, exec.decoded = Except.error e) :
    (∃ d ∈ (Read trx StateSet req exec).Diagnostics, d.Severity = Severity.Error) ∧
    (Read trx StateSet req exec).State = StateAction.Kept := by
  have h0 : (Diagnostics.Append [] req.GetDiags).HasError = false := by
    rw [HasError_Append_nil]; exact hdec
  by_cases hb : exec.bytes.utf8ByteSize = 0
  · simp only [Read, h0, Bool.false_eq_true, if_false, herr, hb, ne_eq, not_false_eq_true,
      and_self, if_true]
    exact ⟨⟨_, mem_AddError _ _ _, rfl⟩, trivial⟩
  · rcases hbody with h | ⟨e, he⟩
    · exact absurd h hb
    · simp only [Read, h0, Bool.false_eq_true, if_false, hb, and_false, he]
      exact ⟨⟨_, mem_AddError _ _ _, rfl⟩, trivial⟩

/-! ## State upgrade -/

/-- C5: for a version-0 state that decodes, the upgrader sets a version-1 state
with the prior `uuid`, `name`, `db_type` and `collector_uuid`, with
`credentials.connection_uuid` the prior top-level `connection_uuid`, with
`credentials.host`, `port`, `database`, `username` and `password` the prior
`configuration` ones, and with `credentials.updated_at` null. -/
theorem StateUpgrader0_reshapes_configuration
    (StateSet : TransactionalWarehouseResourceModel → Diagnostics)
    (req : StateRequest TransactionalWarehouseResourceModelVO)
    (hdec : Diagnostics.HasError req.GetDiags = false) :
    ∃ m, (UpgradeState.StateUpgrader0 StateSet req).State = StateAction.Set m ∧
      m.Uuid = req.State.Uuid ∧ m.Name = req.State.Name ∧ m.DbType = req.State.DbType ∧
      m.CollectorUuid = req.State.CollectorUuid ∧
      m.Credentials.ConnectionUuid = req.State.ConnectionUuid ∧
      m.Credentials.Host = req.State.Configuration.Host ∧
      m.Credentials.Port = req.State.Configuration.Port ∧
      m.Credentials.Database = req.State.Configuration.Database ∧
      m.Credentials.Username = req.State.Configuration.Username ∧
      m.Credentials.Password = req.State.Configuration.Password ∧
      m.Credentials.UpdatedAt = StringValue.null := by
  have h0 : (Diagnostics.Append [] req.GetDiags).HasError = false := by
    rw [HasError_Append_nil]; exact hdec
  simp only [UpgradeState.StateUpgrader0, h0, Bool.not_false, if_true]
  exact ⟨_, rfl, rfl, rfl, rfl, rfl, rfl, rfl, rfl, rfl, rfl, rfl, rfl⟩

end warehouse

/-! ## Import -/

namespace strings

/-- No piece of a split contains an element the split was made at. -/
theorem splitOnP_pieces_free {α : Type} (p : α → Bool) (xs : List α) :
    ∀ l ∈ xs.splitOnP p, ∀ x ∈ l, p x = false := by
  induction xs with
  | nil =>
    intro l hl x hx
    rw [List.splitOnP_nil, List.mem_singleton] at hl
    subst hl
    cases hx
  | cons a as ih =>
    intro l hl x hx
    rw [List.splitOnP_cons] at hl
    by_cases hp : p a = true
    · rw [if_pos hp] at hl
      rcases List.mem_cons.1 hl with rfl | hl
      · cases hx
      · exact ih l hl x hx
    · rw [if_neg hp] at hl
      cases hs : List.splitOnP p as with
      | nil => exact absurd hs (List.splitOnP_ne_nil p as)
      | cons hd tl =>
        rw [hs] at hl ih
        simp only [List.modifyHead_cons, List.mem_cons] at hl
        rcases hl with rfl | hl
        · rcases List.mem_cons.1 hx with rfl | hx
          · simpa using hp
          · exact ih hd (List.mem_cons_self hd tl) x hx
        · exact ih l (List.mem_cons_of_mem hd hl) x hx

/-- What `Split` computes, said without it: `parts` is the split of `s` at the
commas exactly when it is a non-empty list of comma-free strings that, joined
with commas, give `s`. -/
theorem Split_eq_iff (s : String) (parts : List String) :
    Split s ',' = parts ↔
      parts ≠ [] ∧ (∀ p ∈ parts, ',' ∉ p.data) ∧
        s.data = [','].intercalate (parts.map String.data) := by
  have hmk : ∀ L : List (List Char), (L.map String.mk).map String.data = L := by
    intro L
    rw [List.map_map]
    exact List.map_id L
  have hdata : ∀ P : List String, (P.map String.data).map String.mk = P := by
    intro P
    rw [List.map_map]
    exact List.map_id P
  constructor
  · intro h
    subst h
    refine ⟨?_, ?_, ?_⟩
    · intro hnil
      have := List.map_eq_nil_iff.1 hnil
      exact List.splitOnP_ne_nil _ _ this
    · intro p hp hc
      obtain ⟨l, hl, rfl⟩ := List.mem_map.1 hp
      have := splitOnP_pieces_free (· == ',') s.data l hl ',' hc
      simp at this
    · unfold Split
      rw [hmk, List.intercalate_splitOn]
  · rintro ⟨hne, hfree, hs⟩
    unfold Split
    rw [hs, List.splitOn_intercalate, hdata]
    · intro l hl
      obtain ⟨q, hq, rfl⟩ := List.mem_map.1 hl
      exact hfree q hq
    · intro hnil
      exact hne (List.map_eq_nil_iff.1 hnil)

end strings

namespace warehouse

open basetypes diag

/-- C2: `ImportState` sets attributes exactly when the identifier splits at the
commas into three non-empty components; then it sets `uuid`,
`credentials.connection_uuid` and `collector_uuid` to the first, second and
third, and its diagnostics are those `SetAttribute` returned, nothing of its
own; for any other identifier it sets no attribute and adds an error.  The
accepted identifiers are those of the form `a,b,c` with `a`, `b`, `c` non-empty
and free of commas. -/
theorem ImportState_accepts_exactly_three_nonempty (Quote : String → String)
    (SetAttribute : List String → String → Diagnostics) (ID : String) :
    ((ImportState Quote SetAttribute ID).Sets ≠ [] ↔
      ∃ a b c, strings.Split ID ',' = [a, b, c] ∧ a ≠ "" ∧ b ≠ "" ∧ c ≠ "") ∧
    (∀ a b c, strings.Split ID ',' = [a, b, c] → a ≠ "" → b ≠ "" → c ≠ "" →
      ImportState Quote SetAttribute ID =
        ⟨((Diagnostics.Append [] (SetAttribute ["uuid"] a)).Append
            (SetAttribute ["credentials", "connection_uuid"] b)).Append
            (SetAttribute ["collector_uuid"] c),
          [(["uuid"], a), (["credentials", "connection_uuid"], b),
            (["collector_uuid"], c)]⟩) ∧
    ((¬ ∃ a b c, strings.Split ID ',' = [a, b, c] ∧ a ≠ "" ∧ b ≠ "" ∧ c ≠ "") →
      (ImportState Quote SetAttribute ID).Sets = [] ∧
      ∃ d ∈ (ImportState Quote SetAttribute ID).Diagnostics, d.Severity = Severity.Error) ∧
    ((∃ a b c, strings.Split ID ',' = [a, b, c] ∧ a ≠ "" ∧ b ≠ "" ∧ c ≠ "") ↔
      ∃ a b c : String, a ≠ "" ∧ b ≠ "" ∧ c ≠ "" ∧
        ',' ∉ a.data ∧ ',' ∉ b.data ∧ ',' ∉ c.data ∧ ID = a ++ "," ++ b ++ "," ++ c) := by
  have hacc : ∀ a b c, strings.Split ID ',' = [a, b, c] → a ≠ "" → b ≠ "" → c ≠ "" →
      ImportState Quote SetAttribute ID =
        ⟨((Diagnostics.Append [] (SetAttribute ["uuid"] a)).Append
            (SetAttribute ["credentials", "connection_uuid"] b)).Append
            (SetAttribute ["collector_uuid"] c),
          [(["uuid"], a), (["credentials", "connection_uuid"], b),
            (["collector_uuid"], c)]⟩ := by
    intro a b c hs ha hb hc
    simp [ImportState, hs, ha, hb, hc]
  have hrej : (¬ ∃ a b c, strings.Split ID ',' = [a, b, c] ∧ a ≠ "" ∧ b ≠ "" ∧ c ≠ "") →
      ImportState Quote SetAttribute ID =
        ⟨Diagnostics.AddError [] "Unexpected Import Identifier"
          ("Expected import identifier with format: <warehouse_uuid>,<connection_uuid>,<data_collector_uuid>. Got: " ++
            Quote ID), []⟩ := by
    intro hno
    have hcond : ¬ ((strings.Split ID ',').length = 3 ∧
        (strings.Split ID ',').getD 0 "" ≠ "" ∧ (strings.Split ID ',').getD 1 "" ≠ "" ∧
        (strings.Split ID ',').getD 2 "" ≠ "") := by
      rintro ⟨hlen, h0, h1, h2⟩
      apply hno
      match hsp : strings.Split ID ',', hlen with
      | [a, b, c], _ =>
        rw [hsp] at h0 h1 h2
        exact ⟨a, b, c, rfl, h0, h1, h2⟩
    simp only [ImportState, hcond, if_false]
  refine ⟨?_, hacc, ?_, ?_⟩
  · constructor
    · intro hsets
      by_contra hno
      rw [hrej hno] at hsets
      exact hsets rfl
    · rintro ⟨a, b, c, hs, ha, hb, hc⟩
      rw [hacc a b c hs ha hb hc]
      simp
  · intro hno
    rw [hrej hno]
    exact ⟨rfl, ⟨Severity.Error, _, _, none⟩, mem_AddError [] _ _, rfl⟩
  · constructor
    · rintro ⟨a, b, c, hs, ha, hb, hc⟩
      obtain ⟨_, hfree, hd⟩ := (strings.Split_eq_iff ID [a, b, c]).1 hs
      refine ⟨a, b, c, ha, hb, hc, hfree a (by simp), hfree b (by simp), hfree c (by simp), ?_⟩
      apply String.ext
      rw [hd]
      simp [List.intercalate, String.data_append]
    · rintro ⟨a, b, c, ha, hb, hc, hfa, hfb, hfc, hid⟩
      refine ⟨a, b, c, (strings.Split_eq_iff ID [a, b, c]).2 ⟨by simp, ?_, ?_⟩, ha, hb, hc⟩
      · intro p hp
        simp only [List.mem_cons, List.mem_singleton, List.not_mem_nil, or_false] at hp
        rcases hp with rfl | rfl | rfl
        · exact hfa
        · exact hfb
        · exact hfc
      · rw [hid]
        simp [List.intercalate, String.data_append]

end warehouse

/-! ## Concrete evaluations -/

namespace warehouse

open basetypes diag

/-- C1 at concrete states: the protected state gets no client call, the unprotected
one gets the single remove-connection mutation for `c1`. -/
theorem Delete_gated_by_deletion_protection_witness :
    Diagnostics.HasError ([] : Diagnostics) = false ∧
    (Delete (.ok ⟨true⟩) ⟨Examples.protectedState, []⟩).Calls = [] ∧
    (Delete (.ok ⟨true⟩) ⟨Examples.unprotectedState, []⟩).Calls =
      [client.Call.Mutate client.Mutation.RemoveConnection [("connectionId", "c1")]] :=
  ⟨rfl,
    ((Delete_gated_by_deletion_protection (.ok ⟨true⟩) ⟨Examples.protectedState, []⟩ rfl).1
      rfl).2,
    (Delete_gated_by_deletion_protection (.ok ⟨true⟩) ⟨Examples.unprotectedState, []⟩ rfl).2
      (by decide)⟩

/-- C2 at concrete identifiers: `w1,c1,d1` is accepted and sets the three
attributes; the empty identifier splits into one empty component and sets
nothing. -/
theorem ImportState_accepts_exactly_three_nonempty_witness :
    strings.Split "w1,c1,d1" ',' = ["w1", "c1", "d1"] ∧
    ImportState id (fun _ _ => []) "w1,c1,d1" =
      ⟨[], [(["uuid"], "w1"), (["credentials", "connection_uuid"], "c1"),
        (["collector_uuid"], "d1")]⟩ ∧
    strings.Split "" ',' = [""] ∧
    (ImportState id (fun _ _ => []) "").Sets = [] ∧
    (∃ d ∈ (ImportState id (fun _ _ => []) "").Diagnostics, d.Severity = Severity.Error) :=
  ⟨by decide,
    (ImportState_accepts_exactly_three_nonempty id (fun _ _ => []) "w1,c1,d1").2.1
      "w1" "c1" "d1" (by decide) (by decide) (by decide) (by decide),
    by decide,
    (ImportState_accepts_exactly_three_nonempty id (fun _ _ => []) "").2.2.1
      (by
        rintro ⟨a, b, c, h, _⟩
        have h2 : strings.Split "" ',' = [""] := by decide
        rw [h2] at h
        cases h)⟩

/-- C3 at a concrete answer: the remote connection `c1` carries the stored
timestamp and the credentials are written back as stored. -/
theorem Read_unchanged_timestamp_keeps_credentials_witness :
    Examples.answerUnchanged.Responds ⟨some Examples.warehouseUnchanged⟩ ∧
    ∃ m, (Read Examples.trx Examples.quietSet ⟨Examples.protectedState, []⟩
        Examples.answerUnchanged).State = StateAction.Set m ∧
      m.Credentials = Examples.protectedState.Credentials ∧
      m = { Examples.protectedState with Name := StringValue.known "wh" } :=
  ⟨⟨by decide, rfl⟩,
    Read_unchanged_timestamp_keeps_credentials Examples.trx Examples.quietSet
      ⟨Examples.protectedState, []⟩ Examples.answerUnchanged Examples.warehouseUnchanged
      rfl ⟨by decide, rfl⟩ rfl (by decide) (by decide)⟩

/-- C4 at a concrete answer: the remote connection `c1` carries a later timestamp
and the credentials are written with the placeholder. -/
theorem Read_changed_timestamp_writes_placeholder_witness :
    Examples.answerChanged.Responds ⟨some Examples.warehouseChanged⟩ ∧
    ∃ m, (Read Examples.trx Examples.quietSet ⟨Examples.protectedState, []⟩
        Examples.answerChanged).State = StateAction.Set m ∧
      m.Credentials =
        { ConnectionUuid := StringValue.known "c1"
          Host := StringValue.known "(unknown remote value)"
          Port := Int64Value.known (-1)
          Database := StringValue.known "(unknown remote value)"
          Username := StringValue.known "(unknown remote value)"
          Password := StringValue.known "(unknown remote value)"
          UpdatedAt := StringValue.known "2024-02-02T00:00:00Z" } :=
  ⟨⟨by decide, rfl⟩,
    Read_changed_timestamp_writes_placeholder Examples.trx Examples.quietSet
      ⟨Examples.protectedState, []⟩ Examples.answerChanged Examples.warehouseChanged
      "2024-02-02T00:00:00Z" rfl ⟨"c1", rfl⟩ ⟨by decide, rfl⟩ rfl (by decide) (by decide)
      (by decide)⟩

/-- C5 at a concrete version-0 state. -/
theorem StateUpgrader0_reshapes_configuration_witness :
    Diagnostics.HasError ([] : Diagnostics) = false ∧
    ∃ m, (UpgradeState.StateUpgrader0 Examples.quietSet ⟨Examples.protectedStateV0, []⟩).State =
        StateAction.Set m ∧
      m.Uuid = StringValue.known "w1" ∧ m.Name = StringValue.known "wh" ∧
      m.DbType = StringValue.known "POSTGRES" ∧
      m.CollectorUuid = StringValue.known "d1" ∧
      m.Credentials.ConnectionUuid = StringValue.known "c1" ∧
      m.Credentials.Host = StringValue.known "db.local" ∧
      m.Credentials.Port = Int64Value.known 5432 ∧
      m.Credentials.Database = StringValue.known "app" ∧
      m.Credentials.Username = StringValue.known "user" ∧
      m.Credentials.Password = StringValue.known "secret" ∧
      m.Credentials.UpdatedAt = StringValue.null :=
  ⟨rfl, StateUpgrader0_reshapes_configuration Examples.quietSet
    ⟨Examples.protectedStateV0, []⟩ rfl⟩

/-- C6 does not hold as stated: with the stored connection `c1` absent from the
remote connection list (the warehouse is there, under the stored collector),
`Read` does not remove the resource and adds no diagnostic; it writes the
stored state with a null credentials block. -/
theorem Read_missing_connection_counterexample :
    Examples.answerNoConnection.Responds ⟨some Examples.warehouseNoConnection⟩ ∧
    Examples.warehouseNoConnection.DataCollectorUuid =
      Examples.protectedState.CollectorUuid.ValueString ∧
    (∀ c ∈ Examples.warehouseNoConnection.Connections,
      c.Uuid ≠ Examples.protectedState.Credentials.ConnectionUuid.ValueString) ∧
    (Read Examples.trx Examples.quietSet ⟨Examples.protectedState, []⟩
      Examples.answerNoConnection).State ≠ StateAction.Removed ∧
    (Read Examples.trx Examples.quietSet ⟨Examples.protectedState, []⟩
      Examples.answerNoConnection).Diagnostics = [] ∧
    (Read Examples.trx Examples.quietSet ⟨Examples.protectedState, []⟩
      Examples.answerNoConnection).State =
      StateAction.Set { Examples.protectedState with
        Credentials := ⟨.null, .null, .null, .null, .null, .null, .null⟩ } := by
  refine ⟨⟨by decide, rfl⟩, rfl, by decide, by decide, by decide, by decide⟩

/-- C6 as amended, at the answer without connections. -/
theorem Read_missing_connection_nulls_credentials_witness :
    Examples.answerNoConnection.Responds ⟨some Examples.warehouseNoConnection⟩ ∧
    (Read Examples.trx Examples.quietSet ⟨Examples.protectedState, []⟩
      Examples.answerNoConnection).State =
      StateAction.Set { Examples.protectedState with
        Credentials := ⟨.null, .null, .null, .null, .null, .null, .null⟩
        Name := StringValue.known "wh" } :=
  ⟨⟨by decide, rfl⟩,
    (Read_missing_connection_nulls_credentials Examples.trx Examples.quietSet
      ⟨Examples.protectedState, []⟩ Examples.answerNoConnection Examples.warehouseNoConnection
      rfl ⟨by decide, rfl⟩ rfl (by decide)).1⟩

/-- C7 does not hold as stated: with the stored connection `c1` of another type
on the remote side, `Read` adds an error but does not remove the resource; the
state stays as it came. -/
theorem Read_wrong_connection_type_counterexample :
    Examples.answerWrongType.Responds ⟨some Examples.warehouseWrongType⟩ ∧
    Examples.warehouseWrongType.DataCollectorUuid =
      Examples.protectedState.CollectorUuid.ValueString ∧
    (∃ c ∈ Examples.warehouseWrongType.Connections,
      c.Uuid = Examples.protectedState.Credentials.ConnectionUuid.ValueString ∧
      c.Type_ ≠ Examples.trx) ∧
    (Read Examples.trx Examples.quietSet ⟨Examples.protectedState, []⟩
      Examples.answerWrongType).State ≠ StateAction.Removed ∧
    (Read Examples.trx Examples.quietSet ⟨Examples.protectedState, []⟩
      Examples.answerWrongType).State = StateAction.Kept := by
  refine ⟨⟨by decide, rfl⟩, rfl, by decide, by decide, by decide⟩

/-- C7 as amended, at the answer whose connection `c1` has another type. -/
theorem Read_wrong_connection_type_is_error_witness :
    Examples.answerWrongType.Responds ⟨some Examples.warehouseWrongType⟩ ∧
    (∃ d ∈ (Read Examples.trx Examples.quietSet ⟨Examples.protectedState, []⟩
      Examples.answerWrongType).Diagnostics, d.Severity = Severity.Error) ∧
    (Read Examples.trx Examples.quietSet ⟨Examples.protectedState, []⟩
      Examples.answerWrongType).State = StateAction.Kept :=
  ⟨⟨by decide, rfl⟩,
    Read_wrong_connection_type_is_error Examples.trx Examples.quietSet
      ⟨Examples.protectedState, []⟩ Examples.answerWrongType Examples.warehouseWrongType
      rfl ⟨by decide, rfl⟩ rfl (by decide)⟩

/-- C8 at the answer in which the warehouse stands under another collector, and
at the answer in which the warehouse is null: the resource is removed, a
diagnostic of severity warning is there, none of severity error, and no call
is a mutation. -/
theorem Read_removes_missing_or_moved_warehouse_witness :
    Examples.answerMoved.Responds ⟨some Examples.warehouseMoved⟩ ∧
    (Read Examples.trx Examples.quietSet ⟨Examples.protectedState, []⟩
      Examples.answerMoved).State = StateAction.Removed ∧
    (Read Examples.trx Examples.quietSet ⟨Examples.protectedState, []⟩
      Examples.answerMoved).Diagnostics.HasError = false ∧
    (∃ d ∈ (Read Examples.trx Examples.quietSet ⟨Examples.protectedState, []⟩
      Examples.answerMoved).Diagnostics, d.Severity = Severity.Warning) ∧
    (∀ c ∈ (Read Examples.trx Examples.quietSet ⟨Examples.protectedState, []⟩
      Examples.answerMoved).Calls, c.IsMutation = false) ∧
    Examples.answerErrorWithBody.Responds ⟨none⟩ ∧
    (Read Examples.trx Examples.quietSet ⟨Examples.protectedState, []⟩
      Examples.answerErrorWithBody).State = StateAction.Removed ∧
    (∃ d ∈ (Read Examples.trx Examples.quietSet ⟨Examples.protectedState, []⟩
      Examples.answerErrorWithBody).Diagnostics, d.Severity = Severity.Warning) :=
  have h := Read_removes_missing_or_moved_warehouse Examples.trx Examples.quietSet
    ⟨Examples.protectedState, []⟩ Examples.answerMoved ⟨some Examples.warehouseMoved⟩
    rfl ⟨by decide, rfl⟩ (Or.inr ⟨Examples.warehouseMoved, rfl, by decide⟩)
  have h2 := Read_removes_missing_or_moved_warehouse Examples.trx Examples.quietSet
    ⟨Examples.protectedState, []⟩ Examples.answerErrorWithBody ⟨none⟩
    rfl ⟨by decide, rfl⟩ (Or.inl rfl)
  ⟨⟨by decide, rfl⟩, h.1, h.2.2.1, h.2.2.2.2, h.2.2.2.1, ⟨by decide, rfl⟩, h2.1, h2.2.2.2.2⟩

/-- C9 does not hold as stated: when the client returns an error together with
response bytes that decode to an answer without a warehouse, `Read` adds no
error; it warns and removes the resource. -/
theorem Read_error_with_answer_counterexample :
    Examples.answerErrorWithBody.err ≠ none ∧
    Examples.answerErrorWithBody.bytes.utf8ByteSize ≠ 0 ∧
    (Read Examples.trx Examples.quietSet ⟨Examples.protectedState, []⟩
      Examples.answerErrorWithBody).Diagnostics.HasError = false ∧
    (Read Examples.trx Examples.quietSet ⟨Examples.protectedState, []⟩
      Examples.answerErrorWithBody).State = StateAction.Removed := by
  refine ⟨by decide, by decide, by decide, by decide⟩

/-- C9 as amended, at a transport failure without response bytes. -/
theorem Read_error_without_decodable_answer_is_fatal_witness :
    Examples.answerTransportFailure.err ≠ none ∧
    (∃ d ∈ (Read Examples.trx Examples.quietSet ⟨Examples.protectedState, []⟩
      Examples.answerTransportFailure).Diagnostics, d.Severity = Severity.Error) ∧
    (Read Examples.trx Examples.quietSet ⟨Examples.protectedState, []⟩
      Examples.answerTransportFailure).State = StateAction.Kept :=
  ⟨by decide,
    Read_error_without_decodable_answer_is_fatal Examples.trx Examples.quietSet
      ⟨Examples.protectedState, []⟩ Examples.answerTransportFailure rfl (by decide)
      (Or.inl (by decide))⟩

/-- C10 fails on the code: the upgrader leaves `DeletionProtection` out of the
upgraded state.  From a version-0 state with `deletion_protection` true it sets
a state whose `deletion_protection` is null, and `Delete` on that state goes on
to the remove-connection mutation. -/
theorem StateUpgrader0_drops_deletion_protection :
    Examples.protectedStateV0.DeletionProtection = BoolValue.known true ∧
    ∃ m, (UpgradeState.StateUpgrader0 Examples.quietSet
        ⟨Examples.protectedStateV0, []⟩).State = StateAction.Set m ∧
      m.DeletionProtection = BoolValue.null ∧
      (Delete (.ok ⟨true⟩) ⟨m, []⟩).Calls =
        [client.Call.Mutate client.Mutation.RemoveConnection [("connectionId", "c1")]] :=
  ⟨rfl, _, rfl, rfl, by decide⟩

end warehouse
